import Mathlib

/-!
Verification of the presentation driver in `welcome.py`.

The embedding models, straight from the source:
- generator runs of a slide (`Run`, `pynextG`) — a slide is abstracted by its
  number of `yield` points, a run by how many `next` calls it has absorbed;
- the navigation loop `drive_slides` (`step`, `initDriver`, `runLoop`),
  with byte inputs `b'n' = 110`, `b'N' = 78`, `b'\x03' = 3`;
- the raw-mode session `tui_gui` as a try/finally action program;
- the countdown `show_remaining_time` (Python `divmod` is floored);
- the `write_at` escape-sequence builder with Python truthiness on colors.
-/

/-- A Python generator made by calling a slide painter: `total` is its number
of yield points, `pos` how many successful `next` calls it has absorbed,
`done` whether it has already raised `StopIteration`. -/
structure Run where
  total : Nat
  pos : Nat
  done : Bool
deriving DecidableEq

/-- Python `next(g)`: returns the updated generator and whether the call
raised `StopIteration`.  A finished generator raises again. -/
def pynextG (r : Run) : Run × Bool :=
  if r.done then (r, true)
  else if r.pos < r.total then (⟨r.total, r.pos + 1, false⟩, false)
  else (⟨r.total, r.pos, true⟩, true)

/-- The mutable locals of `drive_slides`.  `completed` is write-only
instrumentation, never read by the transition function: it records whether
the current slide's step sequence has been driven to completion (set when
`StopIteration` is caught at an in-slide advance, cleared at each
(re)instantiation). -/
structure DriverState where
  slide_index : Nat
  slide_run : Option Run
  slide_start : Bool
  completed : Bool
deriving DecidableEq

def KEY_NEXT : Nat := 110
def KEY_PREV : Nat := 78
def KEY_CTRL_C : Nat := 3

/-- Outcome of one loop iteration: continue looping, exit via Ctrl-C, or
abort on an uncaught `StopIteration` raised while instantiating a slide. -/
inductive StepOut where
  | next (s : DriverState)
  | quit (s : DriverState)
  | crash (s : DriverState)
deriving DecidableEq

/-- `next(slide_run := slides[i](stage))`: build a fresh generator for slide
`i` and drive it to its first suspension point.  `none` means the `next`
call raised `StopIteration`, which the driver does not catch here. -/
def instantiate (slides : List Nat) (i : Nat) : Option Run :=
  if (pynextG ⟨slides.getD i 0, 0, false⟩).2 then none
  else some (pynextG ⟨slides.getD i 0, 0, false⟩).1

/-- Lines 128-134: the shared slide-change tail.  The bounds test is
`0 <= slide_index + delta < slide_count`; inside it the new slide is
instantiated and `slide_start` reset. -/
def applyDelta (slides : List Nat) (s : DriverState) (delta : Int) : StepOut :=
  if 0 ≤ (s.slide_index : Int) + delta ∧
      (s.slide_index : Int) + delta < (slides.length : Int) then
    match instantiate slides ((s.slide_index : Int) + delta).toNat with
    | some g => .next ⟨((s.slide_index : Int) + delta).toNat, some g, true, false⟩
    | none =>
        .crash ⟨((s.slide_index : Int) + delta).toNat,
                some ⟨slides.getD ((s.slide_index : Int) + delta).toNat 0, 0, true⟩,
                s.slide_start, s.completed⟩
  else .next s

/-- One iteration of the `while` loop of `drive_slides` on input byte `b`. -/
def step (slides : List Nat) (s : DriverState) (b : Nat) : StepOut :=
  if b = KEY_CTRL_C then .quit s
  else if b = KEY_NEXT then
    match s.slide_run with
    | some r =>
        let p := pynextG r
        if p.2 then .next ⟨s.slide_index, none, s.slide_start, true⟩
        else .next ⟨s.slide_index, some p.1, false, s.completed⟩
    | none => applyDelta slides s 1
  else if b = KEY_PREV then
    applyDelta slides s (if s.slide_start then -1 else 0)
  else .next s

/-- Lines 109-113: slide 0 is instantiated before the loop; `none` means the
startup `next` call raised `StopIteration` and the run never reaches the
loop. -/
def initDriver (slides : List Nat) : Option DriverState :=
  match instantiate slides 0 with
  | some g => some ⟨0, some g, true, false⟩
  | none => none

/-- States the navigation loop can be in when it reads an input byte. -/
inductive Reachable (slides : List Nat) : DriverState → Prop where
  | init : ∀ s, initDriver slides = some s → Reachable slides s
  | step : ∀ s b s', Reachable slides s → step slides s b = .next s' →
      Reachable slides s'

/-- Feed `k` copies of the advance byte, stopping on quit or crash. -/
def advanceN (slides : List Nat) (s : DriverState) : Nat → Option DriverState
  | 0 => some s
  | k + 1 =>
      match step slides s KEY_NEXT with
      | .next s' => advanceN slides s' k
      | _ => none

/-- Outcome of running the loop on a finite input byte list. -/
inductive LoopOut where
  | terminated (s : DriverState)
  | aborted (s : DriverState)
  | pending (s : DriverState)
deriving DecidableEq

/-- Run the navigation loop over a list of input bytes. -/
def runLoop (slides : List Nat) (s : DriverState) : List Nat → LoopOut
  | [] => .pending s
  | b :: bs =>
      match step slides s b with
      | .next s' => runLoop slides s' bs
      | .quit s' => .terminated s'
      | .crash s' => .aborted s'

/-- Invariant of every reachable driver state: the index is in bounds, the
current slide has at least one yield point (else its instantiation would
have crashed), a present run is live (never a finished generator), sits
between its first suspension point and its last, belongs to the current
slide, and is absent exactly when the current sequence completed. -/
def DriverInv (slides : List Nat) (s : DriverState) : Prop :=
  s.slide_index < slides.length ∧
  1 ≤ slides.getD s.slide_index 0 ∧
  (∀ r, s.slide_run = some r →
    r.done = false ∧ 1 ≤ r.pos ∧ r.pos ≤ r.total ∧
    r.total = slides.getD s.slide_index 0) ∧
  (s.slide_run = none ↔ s.completed = true)

theorem pynextG_fresh (t : Nat) :
    pynextG ⟨t, 0, false⟩ =
      if 0 < t then (⟨t, 1, false⟩, false) else (⟨t, 0, true⟩, true) := by
  by_cases h : 0 < t <;> simp [pynextG, h]

theorem pynextG_live {r : Run} (hdone : r.done = false) :
    pynextG r =
      if r.pos < r.total then (⟨r.total, r.pos + 1, false⟩, false)
      else (⟨r.total, r.pos, true⟩, true) := by
  simp [pynextG, hdone]

theorem instantiate_of_pos {slides : List Nat} {i : Nat}
    (h : 1 ≤ slides.getD i 0) :
    instantiate slides i = some ⟨slides.getD i 0, 1, false⟩ := by
  unfold instantiate
  rw [pynextG_fresh, if_pos (show 0 < slides.getD i 0 from h)]
  rfl

theorem instantiate_of_zero {slides : List Nat} {i : Nat}
    (h : slides.getD i 0 = 0) : instantiate slides i = none := by
  unfold instantiate
  rw [pynextG_fresh, if_neg (show ¬0 < slides.getD i 0 by omega)]
  rfl

theorem instantiate_eq_some {slides : List Nat} {i : Nat} {g : Run}
    (h : instantiate slides i = some g) :
    1 ≤ slides.getD i 0 ∧ g = ⟨slides.getD i 0, 1, false⟩ := by
  by_cases ht : 0 < slides.getD i 0
  · rw [instantiate_of_pos ht] at h
    exact ⟨ht, (Option.some.inj h).symm⟩
  · rw [instantiate_of_zero (by omega)] at h
    cases h

theorem applyDelta_in {slides : List Nat} {s : DriverState} {d : Int}
    (h0 : 0 ≤ (s.slide_index : Int) + d)
    (h1 : (s.slide_index : Int) + d < (slides.length : Int))
    (hpos : 1 ≤ slides.getD ((s.slide_index : Int) + d).toNat 0) :
    applyDelta slides s d =
      .next ⟨((s.slide_index : Int) + d).toNat,
             some ⟨slides.getD ((s.slide_index : Int) + d).toNat 0, 1, false⟩,
             true, false⟩ := by
  unfold applyDelta
  rw [if_pos ⟨h0, h1⟩, instantiate_of_pos hpos]

theorem applyDelta_crash {slides : List Nat} {s : DriverState} {d : Int}
    (h0 : 0 ≤ (s.slide_index : Int) + d)
    (h1 : (s.slide_index : Int) + d < (slides.length : Int))
    (hz : slides.getD ((s.slide_index : Int) + d).toNat 0 = 0) :
    applyDelta slides s d =
      .crash ⟨((s.slide_index : Int) + d).toNat,
              some ⟨slides.getD ((s.slide_index : Int) + d).toNat 0, 0, true⟩,
              s.slide_start, s.completed⟩ := by
  unfold applyDelta
  rw [if_pos ⟨h0, h1⟩, instantiate_of_zero hz]

theorem applyDelta_out {slides : List Nat} {s : DriverState} {d : Int}
    (h : ¬(0 ≤ (s.slide_index : Int) + d ∧
           (s.slide_index : Int) + d < (slides.length : Int))) :
    applyDelta slides s d = .next s := by
  unfold applyDelta
  rw [if_neg h]

theorem step_quit (slides : List Nat) (s : DriverState) :
    step slides s KEY_CTRL_C = .quit s := by
  unfold step
  rw [if_pos rfl]

theorem step_advance_run {slides : List Nat} {s : DriverState} {r : Run}
    (hrun : s.slide_run = some r) (hdone : r.done = false) :
    step slides s KEY_NEXT =
      if r.pos < r.total then
        .next ⟨s.slide_index, some ⟨r.total, r.pos + 1, false⟩, false, s.completed⟩
      else .next ⟨s.slide_index, none, s.slide_start, true⟩ := by
  unfold step
  rw [if_neg (by decide), if_pos rfl, hrun]
  by_cases hlt : r.pos < r.total <;>
    simp [pynextG_live hdone, hlt]

theorem step_advance_mid {slides : List Nat} {s : DriverState} {r : Run}
    (hrun : s.slide_run = some r) (hdone : r.done = false)
    (hlt : r.pos < r.total) :
    step slides s KEY_NEXT =
      .next ⟨s.slide_index, some ⟨r.total, r.pos + 1, false⟩, false,
             s.completed⟩ := by
  rw [step_advance_run hrun hdone, if_pos hlt]

theorem step_advance_complete {slides : List Nat} {s : DriverState} {r : Run}
    (hrun : s.slide_run = some r) (hdone : r.done = false)
    (hge : ¬r.pos < r.total) :
    step slides s KEY_NEXT =
      .next ⟨s.slide_index, none, s.slide_start, true⟩ := by
  rw [step_advance_run hrun hdone, if_neg hge]

theorem step_advance_absent {slides : List Nat} {s : DriverState}
    (hrun : s.slide_run = none) :
    step slides s KEY_NEXT = applyDelta slides s 1 := by
  unfold step
  rw [if_neg (by decide), if_pos rfl, hrun]

theorem step_rewind (slides : List Nat) (s : DriverState) :
    step slides s KEY_PREV =
      applyDelta slides s (if s.slide_start then -1 else 0) := by
  unfold step
  rw [if_neg (by decide), if_neg (by decide), if_pos rfl]

theorem step_other {slides : List Nat} {s : DriverState} {b : Nat}
    (h3 : b ≠ KEY_CTRL_C) (hn : b ≠ KEY_NEXT) (hp : b ≠ KEY_PREV) :
    step slides s b = .next s := by
  unfold step
  rw [if_neg h3, if_neg hn, if_neg hp]

theorem applyDelta_inv {slides : List Nat} {s s' : DriverState} {d : Int}
    (hInv : DriverInv slides s) (h : applyDelta slides s d = .next s') :
    DriverInv slides s' := by
  by_cases hb : 0 ≤ (s.slide_index : Int) + d ∧
      (s.slide_index : Int) + d < (slides.length : Int)
  · by_cases hz : slides.getD ((s.slide_index : Int) + d).toNat 0 = 0
    · rw [applyDelta_crash hb.1 hb.2 hz] at h
      cases h
    · rw [applyDelta_in hb.1 hb.2 (by omega)] at h
      cases h
      have hlt : ((s.slide_index : Int) + d).toNat < slides.length := by
        obtain ⟨hb0, hb1⟩ := hb
        omega
      refine ⟨hlt, by dsimp only; omega, ?_, by simp⟩
      dsimp only
      intro r hr
      cases hr
      exact ⟨rfl, le_refl 1, by dsimp only; omega, rfl⟩
  · rw [applyDelta_out hb] at h
    cases h
    exact hInv

theorem step_inv {slides : List Nat} {s s' : DriverState} {b : Nat}
    (hInv : DriverInv slides s) (h : step slides s b = .next s') :
    DriverInv slides s' := by
  obtain ⟨hidx, hslide, hr, hcomp⟩ := hInv
  by_cases h3 : b = KEY_CTRL_C
  · subst h3
    rw [step_quit] at h
    cases h
  · by_cases hn : b = KEY_NEXT
    · subst hn
      cases hrun : s.slide_run with
      | some r =>
          obtain ⟨hdone, hpos1, hposle, htot⟩ := hr r hrun
          by_cases hlt : r.pos < r.total
          · rw [step_advance_mid hrun hdone hlt] at h
            cases h
            refine ⟨hidx, hslide, ?_, ?_⟩
            · dsimp only
              intro r' hr'
              cases hr'
              exact ⟨rfl, by dsimp only; omega, by dsimp only; omega, htot⟩
            · rw [hrun] at hcomp
              simp only [reduceCtorEq, false_iff] at hcomp
              simpa using hcomp
          · rw [step_advance_complete hrun hdone hlt] at h
            cases h
            refine ⟨hidx, hslide, ?_, by simp⟩
            intro r' hr'
            cases hr'
      | none =>
          rw [step_advance_absent hrun] at h
          exact applyDelta_inv ⟨hidx, hslide, hr, hcomp⟩ h
    · by_cases hp : b = KEY_PREV
      · subst hp
        rw [step_rewind] at h
        exact applyDelta_inv ⟨hidx, hslide, hr, hcomp⟩ h
      · rw [step_other h3 hn hp] at h
        cases h
        exact ⟨hidx, hslide, hr, hcomp⟩

theorem init_inv {slides : List Nat} {s : DriverState}
    (h : initDriver slides = some s) : DriverInv slides s := by
  unfold initDriver at h
  cases hg : instantiate slides 0 with
  | some g =>
      rw [hg] at h
      cases h
      obtain ⟨ht, hgval⟩ := instantiate_eq_some hg
      subst hgval
      have hlen : 0 < slides.length := by
        cases slides with
        | nil => simp at ht
        | cons a l => simp
      refine ⟨hlen, ht, ?_, by simp⟩
      intro r hr
      cases hr
      exact ⟨rfl, le_refl 1, ht, rfl⟩
  | none =>
      rw [hg] at h
      cases h

theorem reachable_inv {slides : List Nat} {s : DriverState}
    (h : Reachable slides s) : DriverInv slides s := by
  induction h with
  | init s hs => exact init_inv hs
  | step s b s' _ hstep ih => exact step_inv ih hstep

/-- Observable actions of the raw-mode session `tui_gui`:
`captureSettings` is `termios.tcgetattr`, `termSetup` writes
`TERM_SETUP` (hide cursor, alternate screen, clear, home), `setRaw` is
`tty.setraw`, `runBody` is the code run at the `yield stage`,
`restoreSettings` is `termios.tcsetattr(..., orig_settings)`, `termReset`
writes `TERM_RESET` (regular screen, show cursor), `destroyCanvas` is
`stage.canvas.winfo_toplevel().destroy()`. -/
inductive TAct where
  | captureSettings
  | termSetup
  | setRaw
  | runBody
  | restoreSettings
  | termReset
  | destroyCanvas
deriving DecidableEq

/-- A straight-line program with Python try/finally. -/
inductive TProg where
  | act : TAct → TProg
  | seq : TProg → TProg → TProg
  | tryFin : TProg → TProg → TProg

/-- Run a program.  `raises a = true` means performing `a` raises an
exception.  The result lists the actions performed, in order, and tells
whether an exception is propagating at the end.  `seq` skips its tail once
an exception propagates; `tryFin` always runs its finalizer and keeps an
exception propagating if either part raised one. -/
def runT (raises : TAct → Bool) : TProg → List TAct × Bool
  | .act a => ([a], raises a)
  | .seq p q =>
      match runT raises p with
      | (tr, false) =>
          match runT raises q with
          | (tr', e) => (tr ++ tr', e)
      | (tr, true) => (tr, true)
  | .tryFin p q =>
      match runT raises p, runT raises q with
      | (tr, e), (tr', e') => (tr ++ tr', e || e')

/-- `tui_gui` (lines 80-88): capture the line-discipline settings, then in
the `try` block set up the terminal, enter raw mode and yield to the body;
the `finally` block restores the settings, resets the terminal (leave the
alternate screen, show the cursor) and destroys the canvas window. -/
def tui_gui_prog : TProg :=
  .seq (.act .captureSettings)
    (.tryFin
      (.seq (.act .termSetup) (.seq (.act .setRaw) (.act .runBody)))
      (.seq (.act .restoreSettings)
        (.seq (.act .termReset) (.act .destroyCanvas))))

/-- Python `divmod` on integers: floored quotient, remainder with the sign
of the divisor. -/
def pyDivmod (a b : Int) : Int × Int := (Int.fdiv a b, Int.fmod a b)

/-- Python `f"{n:02d}"`: zero-pad to width 2, the sign counting toward the
width. -/
def format02 (n : Int) : String :=
  if 0 ≤ n ∧ n < 10 then "0" ++ toString n else toString n

/-- The arguments of one `stage.write_at` call. -/
structure WriteAtCall where
  col : Int
  row : Int
  text : String
  fg : Option Nat
  bg : Option Nat
deriving DecidableEq

/-- The `text` local of `show_remaining_time`:
`f' {minutes:02d}:{seconds:02d} '` with
`minutes, seconds = divmod(seconds_remaining, 60)`. -/
def countdownText (seconds_remaining : Int) : String :=
  " " ++ format02 (pyDivmod seconds_remaining 60).1 ++ ":" ++
    format02 (pyDivmod seconds_remaining 60).2 ++ " "

/-- `show_remaining_time` (lines 99-106): the `write_at` call it performs,
as a function of the deadline, the current time and the terminal size.
`x = columns - len(text) + 1`, `y = lines`, and the colors are
`(250, None)` when more than 60 seconds remain, `(231, 196)` otherwise. -/
def show_remaining_time (end_seconds now : Int) (columns lines : Nat) :
    WriteAtCall :=
  ⟨(columns : Int) - ((countdownText (end_seconds - now)).length : Int) + 1,
   (lines : Int),
   countdownText (end_seconds - now),
   if end_seconds - now > 60 then some 250 else some 231,
   if end_seconds - now > 60 then none else some 196⟩

/-- Python truthiness of an optional integer color: `None` and `0` are
falsy, every other integer truthy. -/
def pyTruthy : Option Nat → Bool
  | none => false
  | some n => n != 0

/-- One conditional color escape of `write_at`:
`f"\033[38;5;{fg}m" if fg else ""` (and the `48` variant for `bg`). -/
def colorCode (base : String) (c : Option Nat) : String :=
  if pyTruthy c then base ++ toString (c.getD 0) ++ "m" else ""

/-- `write_at` (lines 66-70): the escape sequence written to stdout:
save cursor, move to `(line, col)`, optional colors, text, style reset,
restore cursor. -/
def write_at (col line : Int) (text : String) (fg bg : Option Nat) :
    String :=
  "\x1b[s\x1b[" ++ toString line ++ ";" ++ toString col ++ "H" ++
    (colorCode "\x1b[38;5;" fg ++ colorCode "\x1b[48;5;" bg) ++
    text ++ "\x1b[0m\x1b[u"

/-- C7: on exit of the raw-mode session — whether the navigation loop (the
body at the `yield`) terminates normally or raises — the captured
line-discipline settings are restored, the alternate screen is left with
the cursor shown again (`TERM_RESET`), and the overlay window is
destroyed; the body's exception, if any, still propagates afterwards.
The hypotheses say only the body may raise (teardown failure is a separate,
unspecified path). -/
theorem tui_gui_teardown_guaranteed (raises : TAct → Bool)
    (hcap : raises .captureSettings = false)
    (hsetup : raises .termSetup = false)
    (hraw : raises .setRaw = false)
    (hres : raises .restoreSettings = false)
    (hreset : raises .termReset = false)
    (hdes : raises .destroyCanvas = false) :
    runT raises tui_gui_prog =
      ([.captureSettings, .termSetup, .setRaw, .runBody,
        .restoreSettings, .termReset, .destroyCanvas],
       raises .runBody) := by
  cases hb : raises .runBody <;>
    simp [runT, tui_gui_prog, hcap, hsetup, hraw, hres, hreset, hdes, hb]

/-- Witness for C7 at a concrete failure model: an exception thrown by the
navigation loop itself; the teardown actions still all execute and the
exception propagates. -/
theorem tui_gui_teardown_guaranteed_witness :
    runT (fun a => a = TAct.runBody) tui_gui_prog =
      ([.captureSettings, .termSetup, .setRaw, .runBody,
        .restoreSettings, .termReset, .destroyCanvas],
       (fun a : TAct => (a = TAct.runBody : Bool)) .runBody) :=
  tui_gui_teardown_guaranteed (fun a => a = TAct.runBody)
    rfl rfl rfl rfl rfl rfl

/-- C8: on every countdown refresh the normal scheme (foreground 250, no
background) is used exactly when strictly more than 60 seconds remain, and
the warning scheme (foreground 231 on background 196) exactly when at most
60 seconds remain: the switch is at the 60-second boundary and nowhere
else. -/
theorem countdown_threshold_colors (endSeconds now : Int)
    (columns lines : Nat) :
    (((show_remaining_time endSeconds now columns lines).fg = some 250 ∧
        (show_remaining_time endSeconds now columns lines).bg = none) ↔
      60 < endSeconds - now) ∧
    (((show_remaining_time endSeconds now columns lines).fg = some 231 ∧
        (show_remaining_time endSeconds now columns lines).bg = some 196) ↔
      endSeconds - now ≤ 60) := by
  by_cases h : 60 < endSeconds - now <;>
    simp [show_remaining_time, h] <;> omega

/-- C9: the countdown applies no floor at zero: the displayed pair is the
floored `divmod` of the remaining seconds by 60, so the seconds field is
always in `[0, 60)` while for negative remaining time the minutes field is
negative; e.g. -5 seconds remaining shows minutes -1 and seconds 55,
rendered " -1:55 ". -/
theorem countdown_negative_no_floor :
    (∀ endSeconds now : Int,
      (pyDivmod (endSeconds - now) 60).1 * 60 +
          (pyDivmod (endSeconds - now) 60).2 = endSeconds - now ∧
        0 ≤ (pyDivmod (endSeconds - now) 60).2 ∧
        (pyDivmod (endSeconds - now) 60).2 < 60 ∧
        (endSeconds - now < 0 → (pyDivmod (endSeconds - now) 60).1 < 0)) ∧
    pyDivmod (-5) 60 = (-1, 55) ∧
    countdownText (-5) = " -1:55 " := by
  refine ⟨?_, by decide, by decide⟩
  intro endSeconds now
  have heq := Int.fdiv_add_fmod (endSeconds - now) 60
  have h0 : 0 ≤ (endSeconds - now).fmod 60 :=
    Int.fmod_nonneg' _ (by omega)
  have h1 : (endSeconds - now).fmod 60 < 60 :=
    Int.fmod_lt_of_pos _ (by omega)
  unfold pyDivmod
  refine ⟨by omega, h0, h1, fun hneg => by omega⟩

theorem colorCode_empty_iff {base : String} (hbase : base.length = 7)
    (c : Option Nat) :
    (colorCode base c = "" ↔ pyTruthy c = false) := by
  unfold colorCode
  by_cases h : pyTruthy c = true
  · rw [if_pos h]
    simp only [h, Bool.true_eq_false, iff_false]
    intro hcontra
    have hlen := congrArg String.length hcontra
    rw [String.length_append, String.length_append] at hlen
    have hm : "m".length = 1 := rfl
    have he : "".length = 0 := rfl
    omega
  · rw [if_neg h]
    simp only [Bool.not_eq_true] at h
    simp [h]

/-- C10: `write_at` tests its optional colors by Python truthiness, not
presence: passing ANSI color 0 emits no escape code and is
indistinguishable from passing no color, and a color escape is emitted
exactly for truthy arguments. -/
theorem write_at_truthiness :
    (∀ col line text bg, write_at col line text (some 0) bg =
        write_at col line text none bg) ∧
    (∀ col line text fg, write_at col line text fg (some 0) =
        write_at col line text fg none) ∧
    (∀ c, colorCode "\x1b[38;5;" c = "" ↔ pyTruthy c = false) ∧
    (∀ c, colorCode "\x1b[48;5;" c = "" ↔ pyTruthy c = false) := by
  refine ⟨?_, ?_, colorCode_empty_iff rfl, colorCode_empty_iff rfl⟩
  · intro col line text bg
    simp [write_at, colorCode, pyTruthy]
  · intro col line text fg
    simp [write_at, colorCode, pyTruthy]

theorem advanceN_exhausts_aux (slides : List Nat) (k : Nat) :
    ∀ (s : DriverState) (r : Run), DriverInv slides s →
      s.slide_run = some r → r.total - r.pos = k →
      ∃ s', advanceN slides s (k + 1) = some s' ∧
        s'.slide_run = none ∧ s'.slide_index = s.slide_index ∧
        s'.completed = true ∧ DriverInv slides s' := by
  induction k with
  | zero =>
      intro s r hInv hrun hk
      obtain ⟨hdone, hpos1, hposle, htot⟩ := hInv.2.2.1 r hrun
      have hge : ¬r.pos < r.total := by omega
      have hstep := @step_advance_complete slides s r hrun hdone hge
      refine ⟨⟨s.slide_index, none, s.slide_start, true⟩, ?_, rfl, rfl, rfl,
        step_inv hInv hstep⟩
      unfold advanceN
      rw [hstep]
      rfl
  | succ k ih =>
      intro s r hInv hrun hk
      obtain ⟨hdone, hpos1, hposle, htot⟩ := hInv.2.2.1 r hrun
      have hlt : r.pos < r.total := by omega
      have hstep := @step_advance_mid slides s r hrun hdone hlt
      have hInv' := step_inv hInv hstep
      obtain ⟨s', h1, h2, h3, h4, h5⟩ :=
        ih ⟨s.slide_index, some ⟨r.total, r.pos + 1, false⟩, false,
            s.completed⟩
          ⟨r.total, r.pos + 1, false⟩ hInv' rfl (by dsimp only; omega)
      refine ⟨s', ?_, h2, h3, h4, h5⟩
      unfold advanceN
      rw [hstep]
      exact h1

/-- C2: from any reachable state holding a live run, repeatedly pressing
advance resumes the run through each remaining suspension point and then
makes it absent (at the same slide index); provided every slide in the
deck satisfies the step-sequence contract of at least one suspension
point, the next advance then instantiates slide `i+1` at its first
suspension point when one exists, and is a no-op when `i` is the last
slide. -/
theorem advance_exhausts_then_moves_on (slides : List Nat)
    (s : DriverState) (r : Run)
    (hall : ∀ t ∈ slides, 1 ≤ t)
    (hreach : Reachable slides s) (hrun : s.slide_run = some r) :
    ∃ s', advanceN slides s (r.total - r.pos + 1) = some s' ∧
      s'.slide_run = none ∧ s'.slide_index = s.slide_index ∧
      (s.slide_index + 1 < slides.length →
        step slides s' KEY_NEXT =
          .next ⟨s.slide_index + 1,
                 some ⟨slides.getD (s.slide_index + 1) 0, 1, false⟩,
                 true, false⟩) ∧
      (s.slide_index + 1 = slides.length →
        step slides s' KEY_NEXT = .next s') := by
  have hInv := reachable_inv hreach
  obtain ⟨s', h1, h2, h3, h4, h5⟩ :=
    advanceN_exhausts_aux slides (r.total - r.pos) s r hInv hrun rfl
  refine ⟨s', h1, h2, h3, ?_, ?_⟩
  · intro hlt
    rw [step_advance_absent h2]
    have ht : ((s'.slide_index : Int) + 1).toNat = s.slide_index + 1 := by
      omega
    have hg : 1 ≤ slides.getD (s.slide_index + 1) 0 := by
      have hmem : slides.getD (s.slide_index + 1) 0 ∈ slides := by
        rw [List.getD_eq_getElem?_getD, List.getElem?_eq_getElem (by omega),
            Option.getD_some]
        exact List.getElem_mem _
      exact hall _ hmem
    rw [applyDelta_in (by omega) (by omega) (by rw [ht]; exact hg)]
    rw [ht]
  · intro heq
    rw [step_advance_absent h2]
    rw [applyDelta_out (by omega)]

/-- Witness for C2 on the concrete deck [1, 1] starting at slide 0's
instantiation state: one advance exhausts slide 0, the next instantiates
slide 1 at its first suspension point. -/
theorem advance_exhausts_then_moves_on_witness :
    advanceN [1, 1] ⟨0, some ⟨1, 1, false⟩, true, false⟩ 1 =
      some ⟨0, none, true, true⟩ ∧
    step [1, 1] ⟨0, none, true, true⟩ KEY_NEXT =
      .next ⟨1, some ⟨1, 1, false⟩, true, false⟩ := by
  obtain ⟨s', h1, h2, h3, h4, h5⟩ :=
    advance_exhausts_then_moves_on [1, 1]
      ⟨0, some ⟨1, 1, false⟩, true, false⟩ ⟨1, 1, false⟩
      (by decide) (.init _ rfl) rfl
  have hcomp : advanceN [1, 1] ⟨0, some ⟨1, 1, false⟩, true, false⟩
      (1 - 1 + 1) = some ⟨0, none, true, true⟩ := by decide
  rw [h1] at hcomp
  have hs' := Option.some.inj hcomp
  subst hs'
  exact ⟨h1, h4 (by decide)⟩

/-- C1 is false on the code: in a reachable state where slide 0 (two
suspension points) was advanced past its first step (`atFirstStep` false),
the rewind byte is NOT a no-op — `delta = 0` passes the bounds test
`0 <= slide_index + 0 < slide_count`, so the CURRENT slide is
re-instantiated: a fresh run at its first suspension point, `atFirstStep`
back to true. -/
theorem rewind_mid_slide_not_noop :
    Reachable [2] ⟨0, some ⟨2, 2, false⟩, false, false⟩ ∧
    step [2] ⟨0, some ⟨2, 2, false⟩, false, false⟩ KEY_PREV =
      .next ⟨0, some ⟨2, 1, false⟩, true, false⟩ ∧
    StepOut.next (⟨0, some ⟨2, 1, false⟩, true, false⟩ : DriverState) ≠
      .next ⟨0, some ⟨2, 2, false⟩, false, false⟩ := by
  refine ⟨?_, by decide, by decide⟩
  exact .step ⟨0, some ⟨2, 1, false⟩, true, false⟩ KEY_NEXT
    ⟨0, some ⟨2, 2, false⟩, false, false⟩ (.init _ rfl) (by decide)

/-- C1 amended: in every reachable state with `atFirstStep` false, the
rewind byte re-instantiates the CURRENT slide — slide index unchanged, a
fresh run advanced to the slide's first suspension point, `atFirstStep`
set true (and the completion flag cleared). -/
theorem rewind_mid_slide_reinstantiates (slides : List Nat)
    (s : DriverState) (hreach : Reachable slides s)
    (hstart : s.slide_start = false) :
    step slides s KEY_PREV =
      .next ⟨s.slide_index, some ⟨slides.getD s.slide_index 0, 1, false⟩,
             true, false⟩ := by
  obtain ⟨hidx, hslide, -, -⟩ := reachable_inv hreach
  rw [step_rewind, hstart]
  have hz : (if (false : Bool) then (-1 : Int) else 0) = 0 := rfl
  rw [hz]
  have ht : ((s.slide_index : Int) + 0).toNat = s.slide_index := by omega
  rw [applyDelta_in (by omega) (by omega) (by rw [ht]; exact hslide)]
  rw [ht]

/-- Witness for C1's amended claim on the deck [2], mid-slide. -/
theorem rewind_mid_slide_reinstantiates_witness :
    step [2] ⟨0, some ⟨2, 2, false⟩, false, false⟩ KEY_PREV =
      .next ⟨0, some ⟨2, 1, false⟩, true, false⟩ :=
  rewind_mid_slide_reinstantiates [2] ⟨0, some ⟨2, 2, false⟩, false, false⟩
    (.step ⟨0, some ⟨2, 1, false⟩, true, false⟩ KEY_NEXT
      ⟨0, some ⟨2, 2, false⟩, false, false⟩ (.init _ rfl) (by decide)) rfl

/-- The spec's end-to-end scenario deck: slide 0 has 2 suspension points,
slide 1 has 0, slide 2 has 1. -/
def scenarioSlides : List Nat := [2, 0, 1]

/-- The spec's end-to-end input sequence:
advance, advance, advance, advance, rewind, quit. -/
def scenarioInputs : List Nat :=
  [KEY_NEXT, KEY_NEXT, KEY_NEXT, KEY_NEXT, KEY_PREV, KEY_CTRL_C]

/-- C3 is false on the code: the scenario run ABORTS instead of reaching
normal termination.  The third advance moves to slide 1, whose
instantiation (`next` on a generator with zero yield points) raises
StopIteration; lines 111/132 do not catch it, so the loop dies. -/
theorem scenario_advance4_rewind_quit_aborts :
    initDriver scenarioSlides = some ⟨0, some ⟨2, 1, false⟩, true, false⟩ ∧
    runLoop scenarioSlides ⟨0, some ⟨2, 1, false⟩, true, false⟩
        scenarioInputs =
      .aborted ⟨1, some ⟨0, 0, true⟩, false, true⟩ := by
  decide

/-- C3 amended: the first advance reaches slide 0's second step, the
second exhausts slide 0; the third advance moves to slide 1 and its
instantiation immediately raises an uncaught StopIteration, aborting the
loop — the remaining inputs are never processed and the quit byte never
terminates the loop normally. -/
theorem scenario_aborts_at_third_advance :
    runLoop scenarioSlides ⟨0, some ⟨2, 1, false⟩, true, false⟩
        [KEY_NEXT] =
      .pending ⟨0, some ⟨2, 2, false⟩, false, false⟩ ∧
    runLoop scenarioSlides ⟨0, some ⟨2, 1, false⟩, true, false⟩
        [KEY_NEXT, KEY_NEXT] =
      .pending ⟨0, none, false, true⟩ ∧
    runLoop scenarioSlides ⟨0, some ⟨2, 1, false⟩, true, false⟩
        [KEY_NEXT, KEY_NEXT, KEY_NEXT] =
      .aborted ⟨1, some ⟨0, 0, true⟩, false, true⟩ ∧
    runLoop scenarioSlides ⟨0, some ⟨2, 1, false⟩, true, false⟩
        scenarioInputs =
      .aborted ⟨1, some ⟨0, 0, true⟩, false, true⟩ := by
  decide

/-- C4 is false on the code: for a slide with a single suspension point,
the advance that completes the run leaves `atFirstStep` TRUE — the
`slide_start = False` assignment sits after the `next` call and is skipped
when StopIteration is raised. -/
theorem advance_to_completion_keeps_atFirstStep :
    Reachable [1] ⟨0, some ⟨1, 1, false⟩, true, false⟩ ∧
    step [1] ⟨0, some ⟨1, 1, false⟩, true, false⟩ KEY_NEXT =
      .next ⟨0, none, true, true⟩ ∧
    (⟨0, none, true, true⟩ : DriverState).slide_start = true :=
  ⟨.init _ rfl, by decide, rfl⟩

/-- C4 amended: an advance that reaches another suspension point sets
`atFirstStep` false; an advance that completes the run leaves
`atFirstStep` unchanged (so it can remain true when the slide's first
suspension point is also its last); it is set back to true exactly at
(re)instantiation. -/
theorem atFirstStep_cleared_only_on_mid_advance (slides : List Nat)
    (s : DriverState) (r : Run) (hreach : Reachable slides s)
    (hrun : s.slide_run = some r) :
    (r.pos < r.total →
      step slides s KEY_NEXT =
        .next ⟨s.slide_index, some ⟨r.total, r.pos + 1, false⟩, false,
               s.completed⟩) ∧
    (r.pos = r.total →
      step slides s KEY_NEXT =
        .next ⟨s.slide_index, none, s.slide_start, true⟩) := by
  obtain ⟨-, -, hr, -⟩ := reachable_inv hreach
  obtain ⟨hdone, -, -, -⟩ := hr r hrun
  exact ⟨fun hlt => step_advance_mid hrun hdone hlt,
    fun heq => step_advance_complete hrun hdone (by omega)⟩

/-- Witness for C4's amended claim: the completing advance on the deck [1]
keeps `atFirstStep` at its old value (true). -/
theorem atFirstStep_cleared_only_on_mid_advance_witness :
    step [1] ⟨0, some ⟨1, 1, false⟩, true, false⟩ KEY_NEXT =
      .next ⟨0, none, true, true⟩ :=
  (atFirstStep_cleared_only_on_mid_advance [1]
    ⟨0, some ⟨1, 1, false⟩, true, false⟩ ⟨1, 1, false⟩
    (.init _ rfl) rfl).2 rfl

/-- C5: in every reachable state, the active run is absent iff the current
slide's step sequence was driven to completion (the `completed`
instrumentation flag), and every run the driver holds has `done = false`.
Since the advance branch resumes exactly the run held in `slide_run`
(guard `input_byte == KEY_NEXT and slide_run`), no run that has already
signaled StopIteration is ever resumed. -/
theorem run_absent_iff_completed (slides : List Nat) (s : DriverState)
    (hreach : Reachable slides s) :
    (s.slide_run = none ↔ s.completed = true) ∧
    (∀ r, s.slide_run = some r → r.done = false) := by
  obtain ⟨-, -, hr, hcomp⟩ := reachable_inv hreach
  exact ⟨hcomp, fun r hrun => (hr r hrun).1⟩

/-- Witness for C5 at the initial state of the deck [1]. -/
theorem run_absent_iff_completed_witness :
    ((⟨0, some ⟨1, 1, false⟩, true, false⟩ : DriverState).slide_run =
        none ↔
      (⟨0, some ⟨1, 1, false⟩, true, false⟩ : DriverState).completed =
        true) ∧
    ((⟨0, some ⟨1, 1, false⟩, true, false⟩ : DriverState).slide_run =
        some ⟨1, 1, false⟩ → (⟨1, 1, false⟩ : Run).done = false) :=
  ⟨(run_absent_iff_completed [1] ⟨0, some ⟨1, 1, false⟩, true, false⟩
      (.init _ rfl)).1,
   (run_absent_iff_completed [1] ⟨0, some ⟨1, 1, false⟩, true, false⟩
      (.init _ rfl)).2 ⟨1, 1, false⟩⟩

/-- C6: navigation that would leave [0, slideCount-1] is silently
absorbed with the state untouched: rewind at slide 0 while at its first
step, and advance once the last slide's run is exhausted, both leave
`slideIndex`, `activeRun` and `atFirstStep` unchanged and re-instantiate
nothing. -/
theorem boundary_navigation_noop (slides : List Nat) (s : DriverState)
    (hreach : Reachable slides s) :
    (s.slide_index = 0 → s.slide_start = true →
      step slides s KEY_PREV = .next s) ∧
    (s.slide_index + 1 = slides.length → s.slide_run = none →
      step slides s KEY_NEXT = .next s) := by
  have hInv := reachable_inv hreach
  constructor
  · intro h0 hstart
    rw [step_rewind, hstart]
    have hz : (if (true : Bool) then (-1 : Int) else 0) = -1 := rfl
    rw [hz]
    rw [applyDelta_out (by omega)]
  · intro hlen hrun
    rw [step_advance_absent hrun]
    rw [applyDelta_out (by omega)]

/-- Witness for C6 on the deck [1], in the state where the only slide's
run is exhausted: both boundary inputs leave the state unchanged. -/
theorem boundary_navigation_noop_witness :
    step [1] ⟨0, none, true, true⟩ KEY_PREV =
      .next ⟨0, none, true, true⟩ ∧
    step [1] ⟨0, none, true, true⟩ KEY_NEXT =
      .next ⟨0, none, true, true⟩ := by
  have h := boundary_navigation_noop [1] ⟨0, none, true, true⟩
    (.step ⟨0, some ⟨1, 1, false⟩, true, false⟩ KEY_NEXT
      ⟨0, none, true, true⟩ (.init _ rfl) (by decide))
  exact ⟨h.1 rfl rfl, h.2 rfl rfl⟩
